import Mathlib

/-!
# Verification of the voice-transcription service core

A shallow embedding, in Lean 4, of the request pipeline of the
voice-transcription service (canonical implementation:
`src/voicetranscript/main.py`): client identity resolution, upload
validation, the fixed-window rate limiter, scoped temporary-artifact
lifecycle, transcript assembly and the error-response mapping.

Python string operations are re-implemented here on `List Char`
(structural recursion), so that every definition evaluates inside the
kernel; `String` appears only at the boundaries.  Machine floats occur in
the source only in log messages and in the human-readable size figure of
the `FILE_TOO_LARGE` message; that one message text is abstracted (no
verified property depends on it).
-/

namespace VoiceTranscript

/-! ## Python string primitives (on `List Char`) -/

/-- Python `str.split(sep)` for a one-character separator `sep`
(both uses in the source split on `","` resp. `"/"`).
`splitChars sep acc cs` processes `cs` with `acc` holding the current
field reversed. -/
def splitChars (sep : Char) : List Char → List Char → List (List Char)
  | acc, [] => [acc.reverse]
  | acc, c :: cs =>
    if c = sep then acc.reverse :: splitChars sep [] cs
    else splitChars sep (c :: acc) cs

/-- Python `str.split(sep)` on a string's characters. -/
def pySplit (sep : Char) (cs : List Char) : List (List Char) :=
  splitChars sep [] cs

/-- Python `str.strip()`: remove leading and trailing whitespace. -/
def pyStrip (cs : List Char) : List Char :=
  ((cs.dropWhile Char.isWhitespace).reverse.dropWhile Char.isWhitespace).reverse

/-- Python `str.lower()` (ASCII case folding, as used on extensions). -/
def pyLower (cs : List Char) : List Char :=
  cs.map Char.toLower

/-- Python `str.lstrip('.')`: remove all leading dots. -/
def lstripDots (cs : List Char) : List Char :=
  cs.dropWhile (fun c => c = '.')

/-- Python `str.rfind(ch)`: index of the last occurrence, `none` when the
character does not occur (Python returns `-1` there). -/
def rfindIdx (ch : Char) : List Char → Option Nat
  | [] => none
  | c :: cs =>
    match rfindIdx ch cs with
    | some i => some (i + 1)
    | none => if c = ch then some 0 else none

/-! ## `pathlib` name and suffix

`validate_audio_file` computes the extension as
`Path(file.filename).suffix.lower().lstrip('.')`.  `PurePosixPath.name`
is the last path component after dropping empty and `"."` components;
`suffix` is `name[i:]` for `i = name.rfind('.')` when `0 < i < len(name)-1`,
else the empty string. -/

/-- `pathlib.Path(s).name` on characters (POSIX flavour). -/
def pathNameChars (cs : List Char) : List Char :=
  ((pySplit '/' cs).filter (fun p => decide (p ≠ [] ∧ p ≠ ['.']))).getLastD []

/-- `pathlib.Path`'s `suffix` property applied to a file name. -/
def pySuffixChars (name : List Char) : List Char :=
  match rfindIdx '.' name with
  | none => []
  | some i => if 0 < i ∧ i < name.length - 1 then name.drop i else []

/-- The extension string `validate_audio_file` compares against
`SUPPORTED_FORMATS`: `Path(filename).suffix.lower().lstrip('.')`. -/
def validationExtension (filename : String) : String :=
  String.mk (lstripDots (pyLower (pySuffixChars (pathNameChars filename.toList))))

/-! ## Application constants (`src/voicetranscript/main.py` lines 35-36) -/

def SUPPORTED_FORMATS : List String := ["wav", "mp3", "m4a", "ogg", "flac", "webm", "mp4"]

def FILE_SIZE_LIMIT : Nat := 10 * 1024 * 1024

/-- `", ".join(sorted(SUPPORTED_FORMATS))` as it appears in the
`UNSUPPORTED_FORMAT` message. -/
def sortedFormats : List String := ["flac", "m4a", "mp3", "mp4", "ogg", "wav", "webm"]

def supportedList : String := String.intercalate ", " sortedFormats

/-! ## Validation (`validate_audio_file`, lines 102-153) -/

/-- A raised `ValidationError(message, error_code)`. -/
structure ValidationErr where
  message : String
  error_code : String
deriving DecidableEq, Repr

/-- Message of the `FILE_TOO_LARGE` error.  The source interpolates the
float `file_size / (1024*1024)` with `:.1f` formatting; the exact digits
are abstracted here (no claim concerns this text). -/
def fileTooLargeMsg (byteLength : Nat) : String :=
  "File size (" ++ toString byteLength ++ " bytes) exceeds limit of 10MB"

/-- `validate_audio_file(file, contents)`: `filename` and `content_type`
are `None`-able (Python falsiness: `None` or `""` fails the first check),
`byteLength = len(contents)`.  Returns `.ok ()` where the source returns
normally and `.error` where it raises `ValidationError`.  The
`content_type` argument is used by the source only for an advisory log
warning (see `contentTypeWarns`), never for the verdict. -/
def validate_audio_file (filename content_type : Option String) (byteLength : Nat) :
    Except ValidationErr Unit :=
  if filename.getD "" = "" then
    .error ⟨"No filename provided", "MISSING_FILENAME"⟩
  else
    -- `file_extension = Path(filename).suffix.lower().lstrip('.')`
    if validationExtension (filename.getD "") ∉ SUPPORTED_FORMATS then
      .error ⟨"Unsupported audio format: " ++ validationExtension (filename.getD "") ++
                ". Supported formats: " ++ supportedList,
              "UNSUPPORTED_FORMAT"⟩
    else if byteLength = 0 then
      .error ⟨"Empty file uploaded", "EMPTY_FILE"⟩
    else if byteLength > FILE_SIZE_LIMIT then
      .error ⟨fileTooLargeMsg byteLength, "FILE_TOO_LARGE"⟩
    else
      .ok ()

/-- Python `str.startswith(pre)` on characters. -/
def pyStartsWith (cs pre : List Char) : Bool :=
  pre.isPrefixOf cs

/-- The advisory content-type warning (line 144): fires iff the declared
content type is present, truthy, and starts with neither `audio/` nor
`video/`.  It is logged only; `validate_audio_file` never fails on it. -/
def contentTypeWarns (content_type : Option String) : Bool :=
  match content_type with
  | none => false
  | some ct =>
    decide (ct ≠ "") &&
      !(pyStartsWith ct.toList "audio/".toList || pyStartsWith ct.toList "video/".toList)

/-- The `except Exception` arm of `validate_audio_file` (lines 151-153):
an unexpected fault inside the body is re-raised as a `ValidationError`
with the ad hoc code `VALIDATION_FAILED`.  `fault` injects such a fault. -/
def validateWithFault (fault : Bool) (filename content_type : Option String)
    (byteLength : Nat) : Except ValidationErr Unit :=
  if fault then
    .error ⟨"File validation failed: injected fault", "VALIDATION_FAILED"⟩
  else
    validate_audio_file filename content_type byteLength

/-- The `error_code` carried by a validation outcome, `none` on success. -/
def errorCodeOf (r : Except ValidationErr Unit) : Option String :=
  match r with
  | .ok _ => none
  | .error e => some e.error_code

/-! ## Spec-side extension definitions (for claims C2/C3) -/

/-- The claim's reading of the extension: the substring after the final
`'.'` of the filename, compared case-insensitively (lower-cased); empty
when the filename has no dot. -/
def claimedExtension (filename : String) : String :=
  match rfindIdx '.' filename.toList with
  | none => ""
  | some i => String.mk (pyLower (filename.toList.drop (i + 1)))

/-- The extension rule the code actually implements, stated directly on
the characters of the last path component: the substring after the final
`'.'`, lower-cased, provided that dot is neither the component's first
nor last character; empty otherwise. -/
def amendedExtensionCore (name : List Char) : List Char :=
  match rfindIdx '.' name with
  | none => []
  | some i =>
    if 0 < i ∧ i < name.length - 1 then pyLower (name.drop (i + 1))
    else []

/-- The amended extension rule on a filename. -/
def amendedExtension (filename : String) : String :=
  String.mk (amendedExtensionCore (pathNameChars filename.toList))

/-- The claim's check cascade, first failing check wins, written from the
spec's words (§4.2): non-empty filename, supported extension,
`byteLength > 0`, `byteLength ≤ FILE_SIZE_LIMIT`; the declared content
type takes no part. -/
def firstFailingCheck (filename : Option String) (byteLength : Nat) : Option String :=
  if filename.getD "" = "" then some "MISSING_FILENAME"
  else if validationExtension (filename.getD "") ∉ SUPPORTED_FORMATS then
    some "UNSUPPORTED_FORMAT"
  else if ¬ byteLength > 0 then some "EMPTY_FILE"
  else if ¬ byteLength ≤ FILE_SIZE_LIMIT then some "FILE_TOO_LARGE"
  else none

/-! ## Transcription invoker (`transcribe_audio_file`, lines 156-216) -/

/-- One engine segment: `segment.text` and `segment.end` (the end time,
called `endTime` here because `end` is a Lean keyword). -/
structure Segment where
  text : String
  endTime : Rat
deriving DecidableEq, Repr

/-- Behaviour of the external engine call `model.transcribe(...)`:
either an ordered sequence of segments, or an exception. -/
inductive EngineOutcome where
  | segments (segs : List Segment)
  | raises (message : String)
deriving DecidableEq, Repr

/-- A Python exception inside the `try` of `transcribe_audio_file`:
either a raised `TranscriptionError` or any other exception. -/
inductive PyExc where
  | transcriptionError (message : String) (error_code : String)
  | exc (message : String)
deriving DecidableEq, Repr

/-- Python `str(e)` for the exceptions above. -/
def pyExcStr : PyExc → String
  | .transcriptionError m _ => m
  | .exc m => m

/-- A `TranscriptionError` as observed by the caller. -/
structure TranscriptionErr where
  message : String
  error_code : String
deriving DecidableEq, Repr

/-- `MAX_AUDIO_DURATION` (line 37), used only for an advisory warning. -/
def MAX_AUDIO_DURATION : Rat := 300

/-- The `try` body of `transcribe_audio_file` (lines 170-211): raise
`MODEL_NOT_LOADED` when the global model is `None`; otherwise call the
engine, collect the segment texts in order into `transcript_segments`
while tracking `total_duration`, join with no separator and strip; if the
result is empty return the sentinel.  The second component records
whether the engine call was attempted. -/
def transcribe_audio_file_try (model : Option Unit) (engine : EngineOutcome) :
    Except PyExc String × Bool :=
  if model.isNone then
    (.error (.transcriptionError "Transcription model not initialized" "MODEL_NOT_LOADED"), false)
  else
    match engine with
    | .raises m => (.error (.exc m), true)
    | .segments segs =>
      let collected := segs.foldl
        (fun (acc : List String × Rat) s => (acc.1 ++ [s.text], max acc.2 s.endTime))
        ([], 0)
      let transcript := String.mk (pyStrip (String.join collected.1).toList)
      if transcript = "" then (.ok "[No speech detected]", true)
      else (.ok transcript, true)

/-- `transcribe_audio_file` including its `except Exception` arm (lines
213-216): every exception escaping the body — the engine fault, but also
the just-raised `MODEL_NOT_LOADED` error, since `TranscriptionError`
subclasses `Exception` and no earlier arm re-raises it — is wrapped as
`TranscriptionError(f"Transcription failed for {client_ip}: {str(e)}",
"TRANSCRIPTION_FAILED")`. -/
def transcribe_audio_file (model : Option Unit) (engine : EngineOutcome)
    (client_ip : String) : Except TranscriptionErr String × Bool :=
  match transcribe_audio_file_try model engine with
  | (.ok t, c) => (.ok t, c)
  | (.error e, c) =>
    let m := pyExcStr e
    (.error ⟨"Transcription failed for " ++ client_ip ++ ": " ++ m, "TRANSCRIPTION_FAILED"⟩, c)

/-! ## Rate limiter

Modelled from the spec: the fixed-window counting algorithm (§4.3) runs
inside the `slowapi`/`limits` dependency configured by
`@limiter.limit("5/minute")` in `src/main.py`; that code is not part of
this repository's sources, so the window algorithm is taken from the
spec's words: window id `now / windowSize`; on `check`, create the
window with count 1 and allow on first request, else increment and allow
iff the new count is at most the limit, computing
`retryAfter = windowSize - (now mod windowSize)` on denial.  The HTTP
mapping of a denial (`custom_rate_limit_handler`) is from
`src/main.py` lines 81-88. -/

/-- Quota from `@limiter.limit("5/minute")`. -/
def quotaLimit : Nat := 5

def windowSize : Nat := 60

/-- A rate-limit decision; the spec's invariant is that `allowed = false`
always carries a `retryAfter` estimate. -/
structure RateLimitDecision where
  allowed : Bool
  retryAfter : Option Nat
deriving DecidableEq, Repr

/-- The limiter's backing store: a counter per `(clientKey, windowId)`. -/
def RLStore : Type := String → Nat → Option Nat

def emptyStore : RLStore := fun _ _ => none

/-- Atomic update of one `(key, windowId)` counter. -/
def storeSet (st : RLStore) (key : String) (w : Nat) (c : Nat) : RLStore :=
  fun k v => if k = key ∧ v = w then some c else st k v

/-- Modelled from the spec: one `check(clientKey, quota)` call at time
`now` (seconds). -/
def rlCheck (st : RLStore) (key : String) (now : Nat) : RateLimitDecision × RLStore :=
  let w := now / windowSize
  match st key w with
  | none => (⟨true, none⟩, storeSet st key w 1)
  | some c =>
    if c + 1 ≤ quotaLimit then (⟨true, none⟩, storeSet st key w (c + 1))
    else (⟨false, some (windowSize - now % windowSize)⟩, storeSet st key w (c + 1))

/-- A sequence of checks for one client key at the given times. -/
def runChecks (st : RLStore) (key : String) : List Nat → List RateLimitDecision
  | [] => []
  | t :: ts =>
    let r := rlCheck st key t
    r.1 :: runChecks r.2 key ts

/-- `custom_rate_limit_handler` (`src/main.py` lines 81-88): a
`RateLimitExceeded` exception becomes HTTP 429 with the detail text. -/
def custom_rate_limit_handler (detail : String) : Nat × String :=
  (429, "Rate limit exceeded: " ++ detail)

/-- The decision the claim predicts for the `i`-th request (0-indexed)
of one window, issued at time `t`. -/
def specDecision (i : Nat) (t : Nat) : RateLimitDecision :=
  if i < quotaLimit then ⟨true, none⟩
  else ⟨false, some (windowSize - t % windowSize)⟩

/-! ## Client identity resolution (`get_client_ip`, lines 64-99) -/

/-- The request headers the resolver reads. -/
structure Headers where
  xForwardedFor : Option String
  xRealIp : Option String
deriving DecidableEq, Repr

/-- The direct-connection fallback of `get_client_ip` (lines 90-95):
`request.client and request.client.host`, else `"unknown"`. -/
def get_client_ip_direct (client : Option String) : String :=
  match client with
  | some host => if host ≠ "" then host else "unknown"
  | none => "unknown"

/-- The `x-real-ip` arm of `get_client_ip` (lines 84-87). -/
def get_client_ip_real (xRealIp : Option String) (client : Option String) : String :=
  match xRealIp with
  | some rip => if rip ≠ "" then rip else get_client_ip_direct client
  | none => get_client_ip_direct client

/-- `get_client_ip`: `client` is `request.client.host` (`none` when there
is no client object; Python falsiness makes an empty host fall through
as well).  Total by construction — the source's `try/except` fallback to
`"unknown"` is unreachable for the pure header computations embedded
here. -/
def get_client_ip (h : Headers) (client : Option String) : String :=
  match h.xForwardedFor with
  | some ff =>
    if ff ≠ "" then String.mk (pyStrip ((pySplit ',' ff.toList).headD []))
    else get_client_ip_real h.xRealIp client
  | none => get_client_ip_real h.xRealIp client

/-- The spec's resolution policy (§4.1), written from its words: strict
priority — non-empty forwarded-chain header: first comma token, trimmed;
else a real-IP header (an empty, malformed value falls through to the
next rule): verbatim; else the direct connection address (absent or
empty falls through); else the literal `"unknown"`. -/
def resolveSpec (h : Headers) (client : Option String) : String :=
  let forwardedRule : Option String :=
    h.xForwardedFor.bind fun ff =>
      if ff = "" then none else some (String.mk (pyStrip ((pySplit ',' ff.toList).headD [])))
  let realIpRule : Option String :=
    h.xRealIp.bind fun rip => if rip = "" then none else some rip
  let directRule : Option String :=
    client.bind fun host => if host = "" then none else some host
  ((forwardedRule.or realIpRule).or directRule).getD "unknown"

/-! ## Scoped artifact release (the `finally` block, lines 405-412) -/

/-- A minimal file system: which paths currently exist. -/
def FileSys : Type := String → Bool

/-- `os.remove`: deletes the path, raising `FileNotFoundError` when it
does not exist. -/
def osRemove (p : String) (fs : FileSys) : Except String FileSys :=
  if fs p then .ok (fun q => if q = p then false else fs q)
  else .error "FileNotFoundError"

/-- The `finally` block of `transcribe_audio`: if `tmp_path` is set
(truthy) and the path exists, try to `os.remove` it, swallowing any
exception with a log warning.  Returns the resulting file system and
whether an exception escaped (never). -/
def release (tmp_path : Option String) (fs : FileSys) : FileSys × Bool :=
  match tmp_path with
  | none => (fs, false)
  | some p =>
    if p ≠ "" ∧ fs p = true then
      match osRemove p fs with
      | .ok fs2 => (fs2, false)
      | .error _ => (fs, false)
    else (fs, false)

/-! ## The transcription endpoint (`transcribe_audio`, lines 340-412) -/

/-- Where an *unexpected* (non-custom) exception is injected into the
handler, on top of the behaviours already modelled (engine fault,
validation failure): `inValidation` faults inside `validate_audio_file`'s
own `try`; `afterMaterialize` faults in the handler's `try` after the
temporary file has been written. -/
inductive FaultPoint where
  | noFault
  | inValidation
  | afterMaterialize
deriving DecidableEq, Repr

/-- The transient path `tempfile.NamedTemporaryFile(suffix=ext)` yields;
uniqueness of the OS-chosen name is abstracted into a fixed stem. -/
def tmpName (ext : String) : String := "/tmp/upload" ++ ext

/-- Outcome of one request to `POST /transcribe`.  `error_code` is the
`error_code` field of the wire envelope (absent for the plain
`HTTPException` path); `kind` is the §4.6 taxonomy classification, which
tags the `HTTPException(500)` path `UNEXPECTED`. -/
structure ReqResult where
  httpStatus : Nat
  error_code : Option String
  kind : Option String
  transcript : Option String
  tmp_path : Option String
  fsAfter : FileSys

/-- The part of the handler's `try` after the temporary file (path `p`)
has been written: the injected post-materialization fault becomes the
`HTTPException(500)` path (taxonomy row `UNEXPECTED`, no `error_code`
field on the wire); otherwise the transcription result is assembled (200)
or the `TranscriptionError` re-raises to its handler (500); the `finally`
block releases the artifact in every arm. -/
def transcribe_audio_materialized (p : String) (model : Option Unit)
    (engine : EngineOutcome) (fault : FaultPoint) (client_ip : String) : ReqResult :=
  match fault with
  | .afterMaterialize =>
    { httpStatus := 500, error_code := none, kind := some "UNEXPECTED",
      transcript := none, tmp_path := some p,
      fsAfter := (release (some p) (fun q => q = p)).1 }
  | _ =>
    match transcribe_audio_file model engine client_ip with
    | (.ok t, _) =>
      { httpStatus := 200, error_code := none, kind := none,
        transcript := some t, tmp_path := some p,
        fsAfter := (release (some p) (fun q => q = p)).1 }
    | (.error e, _) =>
      { httpStatus := 500, error_code := some e.error_code,
        kind := some e.error_code, transcript := none, tmp_path := some p,
        fsAfter := (release (some p) (fun q => q = p)).1 }

/-- The request handler `transcribe_audio`: read + validate, write the
temporary file (suffix `Path(filename).suffix.lower()`, line 373),
transcribe, assemble the response; `ValidationError` and
`TranscriptionError` re-raise to their exception handlers (400 resp.
500), any other exception becomes `HTTPException(500)`; the `finally`
block releases the artifact on every path (no artifact was materialized
on the validation-failure paths, where `tmp_path` is still `None`). -/
def transcribe_audio (filename content_type : Option String) (nBytes : Nat)
    (model : Option Unit) (engine : EngineOutcome) (fault : FaultPoint)
    (client_ip : String) : ReqResult :=
  match validateWithFault (fault = .inValidation) filename content_type nBytes with
  | .error e =>
    { httpStatus := 400, error_code := some e.error_code, kind := some e.error_code,
      transcript := none, tmp_path := none,
      fsAfter := (release none (fun _ => false)).1 }
  | .ok _ =>
    -- line 371: a second `if not file.filename` guard (unreachable after
    -- validation passed, kept for fidelity)
    if filename.getD "" = "" then
      { httpStatus := 400, error_code := some "MISSING_FILENAME",
        kind := some "MISSING_FILENAME", transcript := none, tmp_path := none,
        fsAfter := (release none (fun _ => false)).1 }
    else
      transcribe_audio_materialized
        (tmpName (String.mk (pyLower (pySuffixChars
          (pathNameChars (filename.getD "").toList)))))
        model engine fault client_ip

/-- The closed §4.6 error taxonomy. -/
def taxonomy : List String :=
  ["MISSING_FILENAME", "UNSUPPORTED_FORMAT", "EMPTY_FILE", "FILE_TOO_LARGE",
   "RATE_LIMITED", "MODEL_NOT_LOADED", "TRANSCRIPTION_FAILED", "UNEXPECTED"]

/-! ## Health endpoint (`health_check`, lines 300-337) -/

structure HealthResponse where
  httpStatus : Nat
  status : String
  service : String
  version : String
  modelName : String
  modelDevice : String
  modelComputeType : String
  modelStatus : String
  maxFileSizeMb : Nat
  maxDurationSeconds : Nat
  supportedFormats : List String
deriving DecidableEq, Repr

/-- `health_check`: always a normal 200 return; `status` and
`model.status` are computed from whether the global model is set; the
remaining fields are configuration constants. -/
def health_check (model : Option Unit) (modelName device computeType : String) :
    HealthResponse :=
  { httpStatus := 200
    status := if model.isSome then "healthy" else "unhealthy"
    service := "voice-transcription-service"
    version := "1.0.0"
    modelName := modelName
    modelDevice := device
    modelComputeType := computeType
    modelStatus := if model.isSome then "loaded" else "not_loaded"
    maxFileSizeMb := FILE_SIZE_LIMIT / (1024 * 1024)
    maxDurationSeconds := 300
    supportedFormats := sortedFormats }

/-! ## Helper lemmas -/

theorem rfindIdx_lt {ch : Char} :
    ∀ {cs : List Char} {i : Nat}, rfindIdx ch cs = some i → i < cs.length := by
  intro cs
  induction cs with
  | nil => intro i h; simp [rfindIdx] at h
  | cons c cs ih =>
    intro i h
    cases h' : rfindIdx ch cs with
    | some j =>
      simp [rfindIdx, h'] at h
      have := ih h'
      simp [← h]
      omega
    | none =>
      simp [rfindIdx, h'] at h
      by_cases hc : c = ch
      · simp [hc] at h
        simp [← h]
      · simp [hc] at h

theorem rfindIdx_drop {ch : Char} :
    ∀ {cs : List Char} {i : Nat}, rfindIdx ch cs = some i →
      cs.drop i = ch :: cs.drop (i + 1) := by
  intro cs
  induction cs with
  | nil => intro i h; simp [rfindIdx] at h
  | cons c cs ih =>
    intro i h
    cases h' : rfindIdx ch cs with
    | some j =>
      simp [rfindIdx, h'] at h
      subst h
      simpa using ih h'
    | none =>
      simp [rfindIdx, h'] at h
      by_cases hc : c = ch
      · simp [hc] at h
        subst h
        simp [hc]
      · simp [hc] at h

theorem rfindIdx_none_not_mem {ch : Char} :
    ∀ {cs : List Char}, rfindIdx ch cs = none → ∀ x ∈ cs, x ≠ ch := by
  intro cs
  induction cs with
  | nil => intro _ x hx; simp at hx
  | cons c cs ih =>
    intro h x hx
    cases h' : rfindIdx ch cs with
    | some j => simp [rfindIdx, h'] at h
    | none =>
      simp [rfindIdx, h'] at h
      by_cases hc : c = ch
      · simp [hc] at h
      · rcases List.mem_cons.1 hx with rfl | hmem
        · exact hc
        · exact ih h' x hmem

theorem rfindIdx_drop_not_mem {ch : Char} :
    ∀ {cs : List Char} {i : Nat}, rfindIdx ch cs = some i →
      ∀ x ∈ cs.drop (i + 1), x ≠ ch := by
  intro cs
  induction cs with
  | nil => intro i h; simp [rfindIdx] at h
  | cons c cs ih =>
    intro i h
    cases h' : rfindIdx ch cs with
    | some j =>
      simp [rfindIdx, h'] at h
      subst h
      intro x hx
      exact ih h' x (by simpa using hx)
    | none =>
      simp [rfindIdx, h'] at h
      by_cases hc : c = ch
      · simp [hc] at h
        subst h
        intro x hx
        exact rfindIdx_none_not_mem h' x (by simpa using hx)
      · simp [hc] at h

theorem char_toNat_ofNat_valid {n : Nat} (h : n.isValidChar) :
    (Char.ofNat n).toNat = n := by
  unfold Char.ofNat
  rw [dif_pos h]
  rfl

/-- ASCII lower-casing maps no character other than `'.'` to `'.'`. -/
theorem toLower_ne_dot {c : Char} (h : c ≠ '.') : Char.toLower c ≠ '.' := by
  intro heq
  apply h
  have hdef : Char.toLower c =
      if c.toNat ≥ 65 ∧ c.toNat ≤ 90 then Char.ofNat (c.toNat + 32) else c := rfl
  rw [hdef] at heq
  by_cases hr : c.toNat ≥ 65 ∧ c.toNat ≤ 90
  · rw [if_pos hr] at heq
    exfalso
    obtain ⟨hr1, hr2⟩ := hr
    have hv : (c.toNat + 32).isValidChar := Or.inl (by omega)
    have h1 : (Char.ofNat (c.toNat + 32)).toNat = c.toNat + 32 := char_toNat_ofNat_valid hv
    rw [heq] at h1
    have h2 : ('.' : Char).toNat = 46 := by decide
    omega
  · rw [if_neg hr] at heq
    exact heq

theorem lstripDots_of_no_dot {l : List Char} (h : ∀ x ∈ l, x ≠ '.') :
    lstripDots l = l := by
  cases l with
  | nil => rfl
  | cons a t =>
    have ha : a ≠ '.' := h a (List.mem_cons_self a t)
    simp [lstripDots, List.dropWhile_cons, ha]

/-- Core of the extension equivalence, on the name's characters:
`suffix.lower().lstrip('.')` equals the direct statement of the rule. -/
theorem ext_core_eq (name : List Char) :
    lstripDots (pyLower (pySuffixChars name)) = amendedExtensionCore name := by
  unfold pySuffixChars amendedExtensionCore
  cases h : rfindIdx '.' name with
  | none => simp [pyLower, lstripDots]
  | some i =>
    show lstripDots (pyLower (if 0 < i ∧ i < name.length - 1 then name.drop i else [])) =
      (if 0 < i ∧ i < name.length - 1 then pyLower (name.drop (i + 1)) else [])
    by_cases hc : 0 < i ∧ i < name.length - 1
    · rw [if_pos hc, if_pos hc]
      rw [rfindIdx_drop h]
      have hdot : Char.toLower '.' = '.' := by decide
      have hnd : ∀ x ∈ pyLower (name.drop (i + 1)), x ≠ '.' := by
        intro x hx
        rcases List.mem_map.1 hx with ⟨y, hy, rfl⟩
        exact toLower_ne_dot (rfindIdx_drop_not_mem h y hy)
      calc lstripDots (pyLower ('.' :: name.drop (i + 1)))
          = lstripDots ('.' :: pyLower (name.drop (i + 1))) := by
            simp [pyLower, hdot]
        _ = lstripDots (pyLower (name.drop (i + 1))) := by
            simp [lstripDots, List.dropWhile_cons]
        _ = pyLower (name.drop (i + 1)) := lstripDots_of_no_dot hnd
    · rw [if_neg hc, if_neg hc]
      simp [pyLower, lstripDots]

/-- The extension computed by `validate_audio_file`
(`suffix.lower().lstrip('.')`) equals the direct statement of the rule:
substring after the final dot of the name, lower-cased, when that dot is
neither first nor last. -/
theorem validationExtension_eq_amendedExtension (f : String) :
    validationExtension f = amendedExtension f :=
  congrArg String.mk (ext_core_eq (pathNameChars f.toList))

/-! ## Claim theorems -/

/-- C2: for every input `(filename, byteLength, declaredContentType)`,
validation applies its checks in exactly the order non-empty filename
(`MISSING_FILENAME`), supported extension (`UNSUPPORTED_FORMAT`),
`byteLength > 0` (`EMPTY_FILE`), `byteLength ≤ FILE_SIZE_LIMIT`
(`FILE_TOO_LARGE`), the first failing check determining the error kind;
the declared content type is advisory only and never causes failure. -/
theorem c2_validation_check_order (filename content_type : Option String) (n : Nat) :
    errorCodeOf (validate_audio_file filename content_type n) = firstFailingCheck filename n
    ∧ ∀ ct2 : Option String,
        validate_audio_file filename ct2 n = validate_audio_file filename content_type n := by
  constructor
  · unfold validate_audio_file firstFailingCheck
    split_ifs <;> simp_all [errorCodeOf] <;> omega
  · intro ct2
    rfl

/-- C3 counterexample: for the filename `".wav"` the substring after the
final `'.'` is `"wav"`, a member of the supported set, yet validation
rejects the file with `UNSUPPORTED_FORMAT` (the code uses `pathlib`'s
suffix, which is empty for such hidden-file-style names). -/
theorem c3_hidden_file_counterexample :
    claimedExtension ".wav" = "wav"
    ∧ "wav" ∈ SUPPORTED_FORMATS
    ∧ errorCodeOf (validate_audio_file (some ".wav") none 4) = some "UNSUPPORTED_FORMAT" :=
  ⟨by decide, by decide, by decide⟩

/-- C3 amended: for every non-empty filename, the extension used by
validation is the lower-cased substring after the final `'.'` of the last
path component provided that dot is neither the component's first nor
last character, and the empty string otherwise; validation rejects with
`UNSUPPORTED_FORMAT` exactly when that extension is not in the supported
set, and the error message enumerates the full supported set. -/
theorem c3_unsupported_format_amended (fn : String) (ct : Option String) (n : Nat)
    (h : fn ≠ "") :
    validationExtension fn = amendedExtension fn
    ∧ (errorCodeOf (validate_audio_file (some fn) ct n) = some "UNSUPPORTED_FORMAT"
        ↔ amendedExtension fn ∉ SUPPORTED_FORMATS)
    ∧ (amendedExtension fn ∉ SUPPORTED_FORMATS →
        validate_audio_file (some fn) ct n =
          .error ⟨"Unsupported audio format: " ++ amendedExtension fn ++
                  ". Supported formats: " ++ supportedList, "UNSUPPORTED_FORMAT"⟩) := by
  refine ⟨validationExtension_eq_amendedExtension fn, ?_, ?_⟩
  · unfold validate_audio_file
    rw [← validationExtension_eq_amendedExtension fn]
    simp only [Option.getD_some, if_neg h]
    split_ifs with h2 h3 h4 <;> simp [errorCodeOf, h2]
  · intro hns
    unfold validate_audio_file
    rw [← validationExtension_eq_amendedExtension fn] at hns ⊢
    simp only [Option.getD_some, if_neg h, if_pos hns]

/-- C3 amended, witness: `"x.txt"` is rejected as `UNSUPPORTED_FORMAT`. -/
theorem c3_unsupported_format_amended_witness :
    errorCodeOf (validate_audio_file (some "x.txt") none 1) = some "UNSUPPORTED_FORMAT" :=
  (c3_unsupported_format_amended "x.txt" none 1 (by decide)).2.1.mpr (by decide)

theorem collect_texts_aux (segs : List Segment) :
    ∀ acc : List String × Rat,
      (segs.foldl
        (fun (acc : List String × Rat) s => (acc.1 ++ [s.text], max acc.2 s.endTime)) acc).1
        = acc.1 ++ segs.map Segment.text := by
  induction segs with
  | nil => intro acc; simp
  | cons s segs ih =>
    intro acc
    simp only [List.foldl_cons, List.map_cons]
    rw [ih]
    simp

/-- The segment loop of `transcribe_audio_file` collects the segment
texts in emission order. -/
theorem collect_texts (segs : List Segment) :
    (segs.foldl
      (fun (acc : List String × Rat) s => (acc.1 ++ [s.text], max acc.2 s.endTime))
      ([], 0)).1 = segs.map Segment.text := by
  simpa using collect_texts_aux segs ([], 0)

/-- C4: with a loaded model, the returned transcript is the concatenation
of the segments' texts in emission order with no separator, stripped of
leading/trailing whitespace; whenever that stripped concatenation is
empty (zero segments included) the result is exactly the sentinel
`"[No speech detected]"`, and the empty string is never returned. -/
theorem c4_transcript_assembly (segs : List Segment) (ip : String) :
    ((transcribe_audio_file (some ()) (.segments segs) ip).1
      = .ok (if String.mk (pyStrip (String.join (segs.map Segment.text)).toList) = ""
             then "[No speech detected]"
             else String.mk (pyStrip (String.join (segs.map Segment.text)).toList)))
    ∧ (transcribe_audio_file (some ()) (.segments segs) ip).1 ≠ .ok "" := by
  have hT : transcribe_audio_file_try (some ()) (.segments segs)
      = (if String.mk (pyStrip (String.join ((segs.foldl
              (fun (acc : List String × Rat) s => (acc.1 ++ [s.text], max acc.2 s.endTime))
              ([], 0)).1)).toList) = ""
         then (.ok "[No speech detected]", true)
         else (.ok (String.mk (pyStrip (String.join ((segs.foldl
              (fun (acc : List String × Rat) s => (acc.1 ++ [s.text], max acc.2 s.endTime))
              ([], 0)).1)).toList)), true)) := rfl
  rw [collect_texts segs] at hT
  constructor
  · unfold transcribe_audio_file
    rw [hT]
    by_cases hc : String.mk (pyStrip (String.join (segs.map Segment.text)).toList) = ""
    · rw [if_pos hc, if_pos hc]
    · rw [if_neg hc, if_neg hc]
  · unfold transcribe_audio_file
    rw [hT]
    by_cases hc : String.mk (pyStrip (String.join (segs.map Segment.text)).toList) = ""
    · rw [if_pos hc]
      intro hcontra
      have : "[No speech detected]" = "" := by
        simpa using hcontra
      simp at this
    · rw [if_neg hc]
      intro hcontra
      exact hc (by simpa using hcontra)

/-- C6 (code bug): with the model never initialized (`None`), the body of
`transcribe_audio_file` raises `TranscriptionError` with code
`MODEL_NOT_LOADED` without attempting the engine call, but the function's
own blanket `except Exception` arm catches that very exception and
re-raises it with code `TRANSCRIPTION_FAILED`, so the propagated kind is
`TRANSCRIPTION_FAILED`, not `MODEL_NOT_LOADED`. -/
theorem c6_model_not_loaded_rewrapped :
    (transcribe_audio_file_try none (.segments [⟨" hi", 1⟩])).1
      = .error (.transcriptionError "Transcription model not initialized" "MODEL_NOT_LOADED")
    ∧ (transcribe_audio_file none (.segments [⟨" hi", 1⟩]) "203.0.113.9").1
      = .error ⟨"Transcription failed for 203.0.113.9: Transcription model not initialized",
                "TRANSCRIPTION_FAILED"⟩
    ∧ (transcribe_audio_file none (.segments [⟨" hi", 1⟩]) "203.0.113.9").2 = false :=
  ⟨rfl, rfl, rfl⟩

/-- Running the fixed-window checks from a state whose counter for
`(key, w)` is `c` (encoded `none` for `0`) yields the decisions the spec
predicts for requests number `c, c+1, …` of the window. -/
theorem runChecks_from_count (key : String) (w : Nat) :
    ∀ (ts : List Nat) (c : Nat) (st : RLStore),
      (∀ t ∈ ts, t / windowSize = w) →
      st key w = (if c = 0 then none else some c) →
      runChecks st key ts = (ts.enumFrom c).map (fun p => specDecision p.1 p.2) := by
  intro ts
  induction ts with
  | nil => intro c st _ _; rfl
  | cons t ts ih =>
    intro c st hw hst
    have htw : t / windowSize = w := hw t (List.mem_cons_self t ts)
    have hw2 : ∀ u ∈ ts, u / windowSize = w := fun u hu => hw u (List.mem_cons_of_mem t hu)
    have hset : ∀ n : Nat, storeSet st key w n key w = some n := by
      intro n
      simp [storeSet]
    rcases Nat.eq_zero_or_pos c with hc | hc
    · subst hc
      have hst0 : st key w = none := by simpa using hst
      have hcheck : rlCheck st key t = (⟨true, none⟩, storeSet st key w 1) := by
        simp only [rlCheck]
        rw [htw, hst0]
      have hrec := ih 1 (storeSet st key w 1) hw2 (by rw [hset]; rfl)
      have hd : specDecision 0 t = ⟨true, none⟩ := by
        unfold specDecision quotaLimit
        rw [if_pos (by omega)]
      simp only [runChecks]
      rw [hcheck]
      simp [List.enumFrom, hd, hrec]
    · have hcne : c ≠ 0 := Nat.pos_iff_ne_zero.mp hc
      rw [if_neg hcne] at hst
      by_cases hlim : c + 1 ≤ quotaLimit
      · have hcheck : rlCheck st key t = (⟨true, none⟩, storeSet st key w (c + 1)) := by
          simp only [rlCheck]
          rw [htw, hst]
          simp only [if_pos hlim]
        have hrec := ih (c + 1) (storeSet st key w (c + 1)) hw2
          (by rw [hset, if_neg (by omega)])
        have hd : specDecision c t = ⟨true, none⟩ := by
          unfold specDecision
          rw [if_pos (by omega)]
        simp only [runChecks]
        rw [hcheck]
        simp [List.enumFrom, hd, hrec]
      · have hcheck : rlCheck st key t =
            (⟨false, some (windowSize - t % windowSize)⟩, storeSet st key w (c + 1)) := by
          simp only [rlCheck]
          rw [htw, hst]
          simp only [if_neg hlim]
        have hrec := ih (c + 1) (storeSet st key w (c + 1)) hw2
          (by rw [hset, if_neg (by omega)])
        have hd : specDecision c t = ⟨false, some (windowSize - t % windowSize)⟩ := by
          unfold specDecision
          rw [if_neg (by omega)]
        simp only [runChecks]
        rw [hcheck]
        simp [List.enumFrom, hd, hrec]

/-- C1 (rate limiter modelled from the spec, §4.3; the HTTP mapping of a
denial is `custom_rate_limit_handler` from `src/main.py`): for one client
key, for any sequence of checks all inside one window, the `i`-th check
(0-indexed) is allowed iff `i < 5`; every later check is denied with
`retryAfter = windowSize - (now mod windowSize)`, which is positive
(populated), and a denial is returned as HTTP 429. -/
theorem c1_fixed_window_rate_limit (key : String) (ts : List Nat) (w : Nat)
    (hw : ∀ t ∈ ts, t / windowSize = w) :
    runChecks emptyStore key ts = (ts.enumFrom 0).map (fun p => specDecision p.1 p.2)
    ∧ (∀ i t : Nat, i < quotaLimit → specDecision i t = ⟨true, none⟩)
    ∧ (∀ i t : Nat, quotaLimit ≤ i →
        specDecision i t = ⟨false, some (windowSize - t % windowSize)⟩
        ∧ 0 < windowSize - t % windowSize
        ∧ (custom_rate_limit_handler "5 per 1 minute").1 = 429) := by
  refine ⟨runChecks_from_count key w ts 0 emptyStore hw rfl, ?_, ?_⟩
  · intro i t hi
    unfold specDecision
    rw [if_pos hi]
  · intro i t hi
    refine ⟨?_, ?_, rfl⟩
    · unfold specDecision
      rw [if_neg (by omega)]
    · have : t % windowSize < windowSize := Nat.mod_lt t (by norm_num [windowSize])
      omega

/-- C1 witness: six requests from one key inside window 2; the first five
are allowed, the sixth is denied with `retryAfter = 60 - 179 % 60 = 1`. -/
theorem c1_fixed_window_rate_limit_witness :
    runChecks emptyStore "203.0.113.7" [120, 125, 130, 135, 150, 179] =
      [⟨true, none⟩, ⟨true, none⟩, ⟨true, none⟩, ⟨true, none⟩, ⟨true, none⟩,
       ⟨false, some 1⟩] :=
  Eq.trans
    ((c1_fixed_window_rate_limit "203.0.113.7" [120, 125, 130, 135, 150, 179] 2
      (by decide)).1)
    (by decide)

/-- C8: client identity resolution equals the spec's strict priority
policy on all inputs: non-empty forwarded-chain header — first comma
token, trimmed; else non-empty real-IP header verbatim (an empty value
falls through); else the direct connection address (absent or empty falls
through); else the literal `"unknown"`.  Both sides are total Lean
functions, so no input raises. -/
theorem c8_client_identity_resolution (h : Headers) (client : Option String) :
    get_client_ip h client = resolveSpec h client := by
  obtain ⟨ff, rip⟩ := h
  unfold get_client_ip resolveSpec get_client_ip_real get_client_ip_direct
  cases ff with
  | none =>
    cases rip with
    | none =>
      cases client with
      | none => rfl
      | some host => by_cases hh : host = "" <;> simp [hh]
    | some r =>
      by_cases hr : r = ""
      · cases client with
        | none => simp [hr]
        | some host => by_cases hh : host = "" <;> simp [hr, hh]
      · simp [hr]
  | some f =>
    by_cases hf : f = ""
    · cases rip with
      | none =>
        cases client with
        | none => simp [hf]
        | some host => by_cases hh : host = "" <;> simp [hf, hh]
      | some r =>
        by_cases hr : r = ""
        · cases client with
          | none => simp [hf, hr]
          | some host => by_cases hh : host = "" <;> simp [hf, hr, hh]
        · simp [hf, hr]
    · simp [hf]

/-- Unfolding equation for `release` on a set `tmp_path`. -/
theorem release_some (p : String) (fs : FileSys) :
    release (some p) fs =
      (if p ≠ "" ∧ fs p = true then
        match osRemove p fs with
        | .ok fs2 => (fs2, false)
        | .error _ => (fs, false)
      else (fs, false)) := rfl

/-- C9: the artifact release step never lets an exception escape — on a
path already removed (or never set) it is a guarded no-op and any
`os.remove` fault is swallowed — and releasing twice equals releasing
once (the second call does not raise and leaves the file system
unchanged). -/
theorem c9_release_idempotent (t : Option String) (fs : FileSys) :
    (release t fs).2 = false
    ∧ release t (release t fs).1 = ((release t fs).1, false) := by
  cases t with
  | none => exact ⟨rfl, rfl⟩
  | some p =>
    by_cases hcond : p ≠ "" ∧ fs p = true
    · have hrm : osRemove p fs = .ok (fun q => if q = p then false else fs q) := by
        unfold osRemove
        rw [if_pos hcond.2]
      have h1 : release (some p) fs = ((fun q => if q = p then false else fs q), false) := by
        rw [release_some, if_pos hcond, hrm]
      rw [h1]
      refine ⟨rfl, ?_⟩
      show release (some p) (fun q => if q = p then false else fs q)
        = ((fun q => if q = p then false else fs q), false)
      rw [release_some, if_neg (by simp)]
    · have h1 : release (some p) fs = (fs, false) := by
        rw [release_some, if_neg hcond]
      rw [h1]
      refine ⟨rfl, ?_⟩
      show release (some p) fs = (fs, false)
      exact h1

/-- After the `finally` block runs for a truthy `tmp_path`, the path no
longer exists. -/
theorem release_clears (p : String) (fs : FileSys) (hp : p ≠ "") :
    (release (some p) fs).1 p = false := by
  rw [release_some]
  by_cases hex : fs p = true
  · have hrm : osRemove p fs = .ok (fun q => if q = p then false else fs q) := by
      unfold osRemove
      rw [if_pos hex]
    rw [if_pos ⟨hp, hex⟩, hrm]
    simp
  · rw [if_neg (by tauto)]
    simpa using hex

/-- The temporary path is never the empty string. -/
theorem tmpName_ne_empty (ext : String) : tmpName ext ≠ "" := by
  intro heq
  have hd := congrArg String.data heq
  simp only [tmpName, String.data_append] at hd
  have h0 : ("/tmp/upload" : String).data = [] := (List.append_eq_nil.mp hd).1
  simp at h0

/-- The materialized part of the handler records the artifact path. -/
theorem materialized_tmp_path (p : String) (model : Option Unit)
    (engine : EngineOutcome) (fault : FaultPoint) (ip : String) :
    (transcribe_audio_materialized p model engine fault ip).tmp_path = some p := by
  unfold transcribe_audio_materialized
  cases fault with
  | afterMaterialize => rfl
  | noFault =>
    cases transcribe_audio_file model engine ip with
    | mk r c => cases r with
      | ok t => rfl
      | error e => rfl
  | inValidation =>
    cases transcribe_audio_file model engine ip with
    | mk r c => cases r with
      | ok t => rfl
      | error e => rfl

/-- Every arm of the materialized part runs the `finally` release. -/
theorem materialized_fsAfter (p : String) (model : Option Unit)
    (engine : EngineOutcome) (fault : FaultPoint) (ip : String) :
    (transcribe_audio_materialized p model engine fault ip).fsAfter
      = (release (some p) (fun q => q = p)).1 := by
  unfold transcribe_audio_materialized
  cases fault with
  | afterMaterialize => rfl
  | noFault =>
    cases transcribe_audio_file model engine ip with
    | mk r c => cases r with
      | ok t => rfl
      | error e => rfl
  | inValidation =>
    cases transcribe_audio_file model engine ip with
    | mk r c => cases r with
      | ok t => rfl
      | error e => rfl

/-- C5: on every exit path of a transcription request on which the
temporary artifact was materialized — success, transcription failure, or
an unexpected fault — the `finally` block has deleted the artifact by the
time the request terminates. -/
theorem c5_artifact_released_on_every_path
    (filename content_type : Option String) (nBytes : Nat) (model : Option Unit)
    (engine : EngineOutcome) (fault : FaultPoint) (ip : String) (p : String)
    (h : (transcribe_audio filename content_type nBytes model engine fault ip).tmp_path
          = some p) :
    (transcribe_audio filename content_type nBytes model engine fault ip).fsAfter p
      = false := by
  unfold transcribe_audio at h ⊢
  revert h
  cases hv : validateWithFault (decide (fault = .inValidation)) filename content_type nBytes with
  | error e =>
    intro h
    simp at h
  | ok u =>
    by_cases hf : filename.getD "" = ""
    · rw [if_pos hf]
      intro h
      simp at h
    · rw [if_neg hf]
      intro h
      rw [materialized_tmp_path] at h
      injection h with h2
      subst h2
      rw [materialized_fsAfter]
      exact release_clears _ _ (tmpName_ne_empty _)

/-- C5 witness: a successful request materializes `/tmp/upload.wav` and
terminates with the artifact deleted. -/
theorem c5_artifact_released_witness :
    (transcribe_audio (some "a.wav") none 3 (some ()) (.segments []) .noFault
        "198.51.100.4").tmp_path = some "/tmp/upload.wav"
    ∧ (transcribe_audio (some "a.wav") none 3 (some ()) (.segments []) .noFault
        "198.51.100.4").fsAfter "/tmp/upload.wav" = false :=
  ⟨by decide,
   c5_artifact_released_on_every_path (some "a.wav") none 3 (some ()) (.segments [])
     .noFault "198.51.100.4" "/tmp/upload.wav" (by decide)⟩

/-- The codes a raised `ValidationError` can carry (without a fault). -/
theorem validate_error_code (filename content_type : Option String) (n : Nat)
    (e : ValidationErr) (h : validate_audio_file filename content_type n = .error e) :
    e.error_code ∈ ["MISSING_FILENAME", "UNSUPPORTED_FORMAT", "EMPTY_FILE",
                    "FILE_TOO_LARGE"] := by
  revert h
  unfold validate_audio_file
  split_ifs <;> intro h <;>
    first
      | exact h.elim
      | exact Except.noConfusion h
      | (injection h with h1
         rw [← h1]
         first
           | exact List.mem_cons_self _ _
           | exact List.mem_cons_of_mem _ (List.mem_cons_self _ _)
           | exact List.mem_cons_of_mem _ (List.mem_cons_of_mem _ (List.mem_cons_self _ _))
           | exact List.mem_cons_of_mem _ (List.mem_cons_of_mem _
               (List.mem_cons_of_mem _ (List.mem_cons_self _ _))))

/-- The codes a raised `ValidationError` can carry, fault included. -/
theorem validateWithFault_error_code (b : Bool) (filename content_type : Option String)
    (n : Nat) (e : ValidationErr) (h : validateWithFault b filename content_type n = .error e) :
    e.error_code ∈ ["MISSING_FILENAME", "UNSUPPORTED_FORMAT", "EMPTY_FILE",
                    "FILE_TOO_LARGE", "VALIDATION_FAILED"] := by
  revert h
  unfold validateWithFault
  split_ifs with hb
  · intro h
    injection h with h1
    rw [← h1]
    simp
  · intro h
    have h2 := validate_error_code filename content_type n e h
    simp only [List.mem_cons, List.mem_singleton] at h2 ⊢
    tauto

/-- A `TranscriptionError` escaping `transcribe_audio_file` always
carries code `TRANSCRIPTION_FAILED` (cf. C6). -/
theorem transcribe_error_code (model : Option Unit) (engine : EngineOutcome)
    (ip : String) (e : TranscriptionErr) (c : Bool)
    (h : transcribe_audio_file model engine ip = (.error e, c)) :
    e.error_code = "TRANSCRIPTION_FAILED" := by
  revert h
  unfold transcribe_audio_file
  cases transcribe_audio_file_try model engine with
  | mk r b =>
    cases r with
    | ok t =>
      intro h
      injection h with h1 h2
      exact Except.noConfusion h1
    | error e3 =>
      intro h
      injection h with h1 h2
      injection h1 with h3
      rw [← h3]

/-- C7 counterexample: an unexpected fault raised inside the validation
routine is not mapped to `UNEXPECTED`/500 — it is returned as a 400
response with the ad hoc kind `VALIDATION_FAILED`, which lies outside the
eight-member taxonomy. -/
theorem c7_validation_fault_counterexample :
    (transcribe_audio (some "a.wav") none 3 (some ()) (.segments []) .inValidation
        "198.51.100.7").error_code = some "VALIDATION_FAILED"
    ∧ "VALIDATION_FAILED" ∉ taxonomy
    ∧ (transcribe_audio (some "a.wav") none 3 (some ()) (.segments []) .inValidation
        "198.51.100.7").httpStatus = 400 :=
  ⟨by decide, by decide, by decide⟩

/-- C7 amended: an unexpected fault inside the validation routine is
wrapped as a `ValidationError` with kind `VALIDATION_FAILED` and returned
with HTTP 400; an unexpected fault elsewhere in the handler (after
materialization) is mapped to the generic `HTTPException` 500 path, the
`UNEXPECTED` taxonomy row, with no `error_code` field; consequently the
kinds ever returned are the eight taxonomy members extended by
`VALIDATION_FAILED`. -/
theorem c7_unexpected_fault_amended
    (filename content_type : Option String) (n : Nat) (model : Option Unit)
    (engine : EngineOutcome) (ip : String) :
    ((transcribe_audio filename content_type n model engine .inValidation ip).error_code
        = some "VALIDATION_FAILED"
      ∧ (transcribe_audio filename content_type n model engine .inValidation ip).httpStatus
        = 400)
    ∧ (errorCodeOf (validate_audio_file filename content_type n) = none →
        (transcribe_audio filename content_type n model engine .afterMaterialize ip).httpStatus
          = 500
        ∧ (transcribe_audio filename content_type n model engine .afterMaterialize ip).kind
          = some "UNEXPECTED"
        ∧ (transcribe_audio filename content_type n model engine .afterMaterialize ip).error_code
          = none)
    ∧ (∀ fault : FaultPoint,
        ((transcribe_audio filename content_type n model engine fault ip).error_code).getD
            "UNEXPECTED"
          ∈ taxonomy ++ ["VALIDATION_FAILED"]) := by
  refine ⟨⟨rfl, rfl⟩, ?_, ?_⟩
  · intro hok
    have hfn : filename.getD "" ≠ "" := by
      intro hfe
      unfold validate_audio_file at hok
      rw [if_pos hfe] at hok
      simp [errorCodeOf] at hok
    have hv : validateWithFault
        (decide ((FaultPoint.afterMaterialize : FaultPoint) = .inValidation))
        filename content_type n = validate_audio_file filename content_type n := rfl
    unfold transcribe_audio
    rw [hv]
    cases hval : validate_audio_file filename content_type n with
    | error e2 =>
      rw [hval] at hok
      simp [errorCodeOf] at hok
    | ok u =>
      rw [if_neg hfn]
      exact ⟨rfl, rfl, rfl⟩
  · intro fault
    cases fault with
    | inValidation =>
      have h1 : (transcribe_audio filename content_type n model engine .inValidation
          ip).error_code = some "VALIDATION_FAILED" := rfl
      rw [h1]
      decide
    | afterMaterialize =>
      unfold transcribe_audio
      cases hv : validateWithFault
          (decide ((FaultPoint.afterMaterialize : FaultPoint) = .inValidation))
          filename content_type n with
      | error e =>
        have he := validateWithFault_error_code _ filename content_type n e hv
        show e.error_code ∈ taxonomy ++ ["VALIDATION_FAILED"]
        simp only [List.mem_cons, List.not_mem_nil, or_false] at he
        rcases he with h2 | h2 | h2 | h2 | h2 <;> rw [h2] <;> decide
      | ok u =>
        by_cases hf : filename.getD "" = ""
        · rw [if_pos hf]
          show ("MISSING_FILENAME" : String) ∈ taxonomy ++ ["VALIDATION_FAILED"]
          decide
        · rw [if_neg hf]
          show ("UNEXPECTED" : String) ∈ taxonomy ++ ["VALIDATION_FAILED"]
          decide
    | noFault =>
      unfold transcribe_audio
      cases hv : validateWithFault
          (decide ((FaultPoint.noFault : FaultPoint) = .inValidation))
          filename content_type n with
      | error e =>
        have he := validateWithFault_error_code _ filename content_type n e hv
        show e.error_code ∈ taxonomy ++ ["VALIDATION_FAILED"]
        simp only [List.mem_cons, List.not_mem_nil, or_false] at he
        rcases he with h2 | h2 | h2 | h2 | h2 <;> rw [h2] <;> decide
      | ok u =>
        by_cases hf : filename.getD "" = ""
        · rw [if_pos hf]
          show ("MISSING_FILENAME" : String) ∈ taxonomy ++ ["VALIDATION_FAILED"]
          decide
        · rw [if_neg hf]
          unfold transcribe_audio_materialized
          cases htr2 : transcribe_audio_file model engine ip with
          | mk r c =>
            cases r with
            | ok t =>
              show ("UNEXPECTED" : String) ∈ taxonomy ++ ["VALIDATION_FAILED"]
              decide
            | error e2 =>
              have h3 := transcribe_error_code model engine ip e2 c htr2
              show e2.error_code ∈ taxonomy ++ ["VALIDATION_FAILED"]
              rw [h3]
              decide

/-- C7 amended, witness: a valid request with a post-materialization
fault yields the 500/`UNEXPECTED` path. -/
theorem c7_unexpected_fault_amended_witness :
    (transcribe_audio (some "a.wav") none 3 (some ()) (.segments []) .afterMaterialize
        "198.51.100.9").httpStatus = 500 :=
  ((c7_unexpected_fault_amended (some "a.wav") none 3 (some ()) (.segments [])
      "198.51.100.9").2.1 (by decide)).1

/-- C10: the health endpoint always returns HTTP 200; its `status` field
is `"healthy"` exactly when the model handle is initialized and
`"unhealthy"` otherwise, with `model.status` correspondingly `"loaded"`
or `"not_loaded"`; the configuration strings do not affect the verdict. -/
theorem c10_health_check (model : Option Unit) (nm dev ctype : String) :
    (health_check model nm dev ctype).httpStatus = 200
    ∧ ((health_check model nm dev ctype).status = "healthy" ↔ model.isSome = true)
    ∧ ((health_check model nm dev ctype).status = "unhealthy" ↔ model.isSome = false)
    ∧ ((health_check model nm dev ctype).modelStatus
        = if model.isSome then "loaded" else "not_loaded")
    ∧ (∀ nm2 dev2 ctype2 : String,
        (health_check model nm2 dev2 ctype2).status = (health_check model nm dev ctype).status
        ∧ (health_check model nm2 dev2 ctype2).modelStatus
          = (health_check model nm dev ctype).modelStatus) := by
  cases model with
  | none =>
    refine ⟨rfl, ?_, ?_, rfl, fun _ _ _ => ⟨rfl, rfl⟩⟩ <;> simp [health_check]
  | some u =>
    refine ⟨rfl, ?_, ?_, rfl, fun _ _ _ => ⟨rfl, rfl⟩⟩ <;> simp [health_check]

end VoiceTranscript
